import Mathlib

/-!
Verification of the incremental change-detection engine in
`update_and_extract_new.py` (Hagezi blocklist new-record tracker).

The Python source is shallowly embedded: pure functions (`parse_records`,
the content layout written by `save_new_records`) become Lean functions;
the network fetches become an explicit fetcher function returning
`Except PyError String`; the orchestration in `main` becomes a pure
function from the fetcher, the configured file list, the latest commit and
the loaded tracker state to a run result (outputs written, final tracker
state, raised error, and the trace of fetch calls performed).
-/

namespace HageziTracker

/-- Whitespace characters recognised by Python's `str.strip()`
(`Py_UNICODE_ISSPACE`): ASCII whitespace, the C0 separators 0x1c-0x1f,
NEL, NBSP and the Unicode space/line/paragraph separators. -/
def pyIsSpace (c : Char) : Bool :=
  c = ' ' || c = '\t' || c = '\n' || c = '\x0b' || c = '\x0c' || c = '\x0d' ||
  c = '\x1c' || c = '\x1d' || c = '\x1e' || c = '\x1f' ||
  c = '\x85' || c = '\xa0' || c = '\u1680' ||
  ('\u2000' ≤ c && c ≤ '\u200a') ||
  c = '\u2028' || c = '\u2029' || c = '\u202f' || c = '\u205f' || c = '\u3000'

/-- Line boundaries recognised by Python's `str.splitlines()`:
LF, VT, FF, CR, FS, GS, RS, NEL, LINE SEPARATOR, PARAGRAPH SEPARATOR
(CR LF counting as a single boundary). -/
def isLineBoundary (c : Char) : Bool :=
  c = '\n' || c = '\x0b' || c = '\x0c' || c = '\x0d' ||
  c = '\x1c' || c = '\x1d' || c = '\x1e' ||
  c = '\x85' || c = '\u2028' || c = '\u2029'

/-- `str.splitlines()` on a list of characters: split at every line
boundary, treating `"\r\n"` as one boundary; no trailing empty line for a
trailing boundary. -/
def splitLinesList : List Char → List (List Char)
  | [] => []
  | [c] => if isLineBoundary c then [[]] else [[c]]
  | c :: c2 :: cs =>
    if c = '\x0d' && c2 = '\n' then
      [] :: splitLinesList cs
    else if isLineBoundary c then
      [] :: splitLinesList (c2 :: cs)
    else
      match splitLinesList (c2 :: cs) with
      | [] => [[c]]
      | l :: ls => (c :: l) :: ls

/-- `content.splitlines()` on strings. -/
def splitlines (s : String) : List String :=
  (splitLinesList s.data).map (fun l => ⟨l⟩)

/-- `line.strip()`: remove leading and trailing Python whitespace. -/
def pyStrip (s : String) : String :=
  ⟨((s.data.dropWhile pyIsSpace).reverse.dropWhile pyIsSpace).reverse⟩

/-- `line.startswith('#')`. -/
def startsWithHash (s : String) : Bool :=
  s.data.head? = some '#'

/-- `parse_records(content)`: split into lines, strip each line, keep the
lines that are non-empty and do not start with `'#'`, as a set. -/
def parse_records (content : String) : Finset String :=
  (((splitlines content).map pyStrip).filter
    (fun l => l ≠ "" ∧ ¬ startsWithHash l)).toFinset

/-- The failure modes of a fetch in the source: `requests` raises
`HTTPError` carrying a status code after `raise_for_status()`, or some
other exception (timeout, connection error, ...). -/
inductive PyError
  | httpError (status : Nat)
  | otherError (msg : String)
deriving DecidableEq, Repr

/-- The text written by `save_new_records(file_path, records)`: three
`'#'` header lines, a blank line, then the sorted records one per line,
or the no-new-records marker line when the set is empty. -/
def save_new_records_content (file_path timestamp : String)
    (records : Finset String) : String :=
  "# New records added to " ++ file_path ++ "\n" ++
  "# Last updated: " ++ timestamp ++ "\n" ++
  "# Total new records: " ++ Nat.repr records.card ++ "\n\n" ++
  (if records = ∅ then "# No new records detected in the last check\n"
   else String.join ((records.sort (· ≤ ·)).map (fun r => r ++ "\n")))

/-- `process_file(repo, file_path, old_commit_sha, new_commit_sha)`: the
set of newly observed records passed to `save_new_records` (or the
propagated error), together with the `(commit_sha, file_path)` fetch
calls performed, in order.  Only an `HTTPError` with status 404 on the
old fetch is handled; any other error propagates. -/
def process_file (fetch : String → String → Except PyError String)
    (file_path : String) (old_commit_sha : Option String)
    (new_commit_sha : String) :
    Except PyError (Finset String) × List (String × String) :=
  match fetch new_commit_sha file_path with
  | .error e => (.error e, [(new_commit_sha, file_path)])
  | .ok new_content =>
    let new_records_set := parse_records new_content
    match old_commit_sha with
    | none => (.ok ∅, [(new_commit_sha, file_path)])
    | some oldSha =>
      match fetch oldSha file_path with
      | .ok old_content =>
          (.ok (new_records_set \ parse_records old_content),
           [(new_commit_sha, file_path), (oldSha, file_path)])
      | .error (.httpError status) =>
          if status = 404 then
            (.ok new_records_set,
             [(new_commit_sha, file_path), (oldSha, file_path)])
          else
            (.error (.httpError status),
             [(new_commit_sha, file_path), (oldSha, file_path)])
      | .error e => (.error e, [(new_commit_sha, file_path), (oldSha, file_path)])

/-- The per-file loop in `main`: process files in order, collecting
`(file_path, newly observed records)` outputs; the first error aborts the
loop, since `main` has no per-file exception handler.  Returns the
outputs written so far, the escaping error (if any) and the fetch trace. -/
def processLoop (fetch : String → String → Except PyError String)
    (files : List String) (old_commit_sha : Option String)
    (new_commit_sha : String) :
    List (String × Finset String) × Option PyError × List (String × String) :=
  match files with
  | [] => ([], none, [])
  | f :: rest =>
    match process_file fetch f old_commit_sha new_commit_sha with
    | (.ok recs, tr) =>
      let r := processLoop fetch rest old_commit_sha new_commit_sha
      ((f, recs) :: r.1, r.2.1, tr ++ r.2.2)
    | (.error e, tr) => ([], some e, tr)

/-- Result of one invocation of `main` (after the latest commit was
obtained): the per-file outputs written, the tracker state
(`last_commit.txt`) at the end of the run, the error escaping `main`
(if any; `main` re-raises, so a non-`none` value is a non-zero exit),
and the fetch calls performed. -/
structure RunResult where
  outputs : List (String × Finset String)
  tracker : Option String
  failed : Option PyError
  fetches : List (String × String)
deriving DecidableEq

/-- The run logic of `main` once the configuration and the latest commit
are in hand: `latest` is the freshly obtained commit SHA, `last` the
loaded tracker state (`none` on a first run), `saveResult` the outcome
of `save_last_commit` writing `last_commit.txt`.  When
`last = some latest`, `main` short-circuits: it writes one empty output
per file, performs no fetch, and neither saves nor raises.  Otherwise it
runs the per-file loop; an escaping error reaches `main`'s handler which
re-raises, leaving the tracker at its pre-run value.  `commit_changes`
swallows its own exceptions and cannot affect the result. -/
def main_run (fetch : String → String → Except PyError String)
    (saveResult : Except PyError Unit) (files : List String)
    (latest : String) (last : Option String) : RunResult :=
  if last = some latest then
    { outputs := files.map (fun f => (f, (∅ : Finset String)))
      tracker := last
      failed := none
      fetches := [] }
  else
    match processLoop fetch files last latest with
    | (outs, some e, tr) =>
      { outputs := outs, tracker := last, failed := some e, fetches := tr }
    | (outs, none, tr) =>
      match saveResult with
      | .ok _ =>
        { outputs := outs, tracker := some latest, failed := none, fetches := tr }
      | .error e =>
        { outputs := outs, tracker := last, failed := some e, fetches := tr }

/-- C8.  Canonicalization: `parse_records` keeps exactly the stripped
lines that are non-empty and do not start with `'#'`, as a deduplicated
set, and on `"  a.com \n# comment\n\nB.com\na.com\n"` it yields exactly
`{"a.com", "B.com"}`. -/
theorem parse_records_canonicalization :
    (∀ (content : String) (x : String),
      x ∈ parse_records content ↔
        ∃ l ∈ splitlines content,
          pyStrip l = x ∧ x ≠ "" ∧ ¬ startsWithHash x) ∧
    parse_records "  a.com \n# comment\n\nB.com\na.com\n" =
      ({"a.com", "B.com"} : Finset String) := by
  refine ⟨?_, by decide⟩
  intro content x
  simp only [parse_records, List.mem_toFinset, List.mem_filter, List.mem_map,
    decide_eq_true_eq]
  constructor
  · rintro ⟨⟨l, hl, rfl⟩, h1, h2⟩
    exact ⟨l, hl, rfl, h1, h2⟩
  · rintro ⟨l, hl, rfl, h1, h2⟩
    exact ⟨⟨l, hl, rfl⟩, h1, h2⟩

/-- C3.  Set-difference correctness: when an old commit is present,
differs from the new one, and both fetches succeed, the newly observed
set is exactly `parse_records new \ parse_records old`. -/
theorem process_file_set_difference
    (fetch : String → String → Except PyError String)
    (file_path oldSha newSha oldContent newContent : String)
    (_hdiff : oldSha ≠ newSha)
    (hnew : fetch newSha file_path = Except.ok newContent)
    (hold : fetch oldSha file_path = Except.ok oldContent) :
    (process_file fetch file_path (some oldSha) newSha).1 =
      Except.ok (parse_records newContent \ parse_records oldContent) := by
  simp [process_file, hnew, hold]

/-- Witness for C3 at a concrete fetcher. -/
theorem process_file_set_difference_witness :
    (process_file
      (fun sha _ => if sha = "new" then Except.ok "a.com\nb.com\n"
                    else Except.ok "a.com\n")
      "domains/f.txt" (some "old") "new").1 =
      Except.ok (parse_records "a.com\nb.com\n" \ parse_records "a.com\n") :=
  process_file_set_difference _ _ _ _ _ _ (by decide) rfl rfl

/-- C5.  Missing-prior-file policy: a 404 `HTTPError` on the old fetch
makes the newly observed set the full new record set; any other error on
the old fetch propagates. -/
theorem process_file_missing_prior
    (fetch : String → String → Except PyError String)
    (file_path oldSha newSha newContent : String)
    (hnew : fetch newSha file_path = Except.ok newContent) :
    (fetch oldSha file_path = Except.error (PyError.httpError 404) →
      (process_file fetch file_path (some oldSha) newSha).1 =
        Except.ok (parse_records newContent)) ∧
    (∀ e, fetch oldSha file_path = Except.error e →
      e ≠ PyError.httpError 404 →
      (process_file fetch file_path (some oldSha) newSha).1 = Except.error e) := by
  constructor
  · intro h404
    simp [process_file, hnew, h404]
  · rintro (status | msg) he hne
    · have hs : status ≠ 404 := fun h => hne (by rw [h])
      simp [process_file, hnew, he, hs]
    · simp [process_file, hnew, he]

/-- Witness for C5 at a concrete fetcher returning 404 for the old commit. -/
theorem process_file_missing_prior_witness :
    (process_file
      (fun sha _ => if sha = "new" then Except.ok "a.com\n"
                    else Except.error (PyError.httpError 404))
      "domains/f.txt" (some "old") "new").1 =
      Except.ok (parse_records "a.com\n") :=
  (process_file_missing_prior _ _ _ _ _ rfl).1 rfl

/-- C6.  First-run policy: with no prior commit, the newly observed set
is empty whatever the new content is, and the new content is still
fetched (it is the single fetch in the trace). -/
theorem process_file_first_run
    (fetch : String → String → Except PyError String)
    (file_path newSha newContent : String)
    (hnew : fetch newSha file_path = Except.ok newContent) :
    process_file fetch file_path none newSha =
      (Except.ok (∅ : Finset String), [(newSha, file_path)]) := by
  simp [process_file, hnew]

/-- Witness for C6 at a concrete fetcher. -/
theorem process_file_first_run_witness :
    process_file (fun _ _ => Except.ok "a.com\nb.com\n") "domains/f.txt"
        none "new" =
      (Except.ok (∅ : Finset String), [("new", "domains/f.txt")]) :=
  process_file_first_run _ _ _ _ rfl

/-- C7.  No-op short-circuit: when the freshly obtained commit equals the
loaded one, no fetch happens at all (in particular none of the old
content) and the run still writes one output per configured file, each
with an empty newly observed set. -/
theorem main_run_noop_short_circuit
    (fetch : String → String → Except PyError String)
    (saveResult : Except PyError Unit) (files : List String) (latest : String) :
    main_run fetch saveResult files latest (some latest) =
      { outputs := files.map (fun f => (f, (∅ : Finset String)))
        tracker := some latest
        failed := none
        fetches := [] } := by
  simp [main_run]

/-- The outputs the per-file loop produced are exactly the leading files
up to the point it stopped, and whenever the loop stopped on an error it
stopped strictly before the end of the list. -/
theorem processLoop_outputs_prefix
    (fetch : String → String → Except PyError String)
    (old : Option String) (newSha : String) :
    ∀ files : List String,
      (processLoop fetch files old newSha).1.map Prod.fst =
        files.take (processLoop fetch files old newSha).1.length ∧
      ((processLoop fetch files old newSha).2.1 ≠ none →
        (processLoop fetch files old newSha).1.length < files.length) := by
  intro files
  induction files with
  | nil => simp [processLoop]
  | cons f rest ih =>
    rcases hpf : process_file fetch f old newSha with ⟨res, tr⟩
    cases res with
    | ok recs =>
      simp only [processLoop, hpf]
      refine ⟨?_, fun h => ?_⟩
      · simpa using ih.1
      · simpa using ih.2 (by simpa using h)
    | error e =>
      simp [processLoop, hpf]

/-- When the per-file loop finishes without an error it has produced one
output per configured file, in order. -/
theorem processLoop_success_outputs
    (fetch : String → String → Except PyError String)
    (old : Option String) (newSha : String) :
    ∀ files : List String,
      (processLoop fetch files old newSha).2.1 = none →
      (processLoop fetch files old newSha).1.map Prod.fst = files := by
  intro files
  induction files with
  | nil => simp [processLoop]
  | cons f rest ih =>
    rcases hpf : process_file fetch f old newSha with ⟨res, tr⟩
    cases res with
    | ok recs =>
      intro h
      simp only [processLoop, hpf] at h ⊢
      simpa using ih (by simpa using h)
    | error e =>
      intro h
      simp [processLoop, hpf] at h

/-- C2.  TrackerState advancement gating: either the tracker keeps its
pre-run value, or the per-file loop completed every comparison (one
success per configured file), the save succeeded, and the tracker is the
new latest commit. -/
theorem main_run_tracker_gating
    (fetch : String → String → Except PyError String)
    (saveResult : Except PyError Unit) (files : List String)
    (latest : String) (last : Option String) :
    (main_run fetch saveResult files latest last).tracker = last ∨
    ((processLoop fetch files last latest).2.1 = none ∧
     (processLoop fetch files last latest).1.map Prod.fst = files ∧
     saveResult = Except.ok () ∧
     (main_run fetch saveResult files latest last).tracker = some latest) := by
  have hout := processLoop_success_outputs fetch last latest files
  rcases hp : processLoop fetch files last latest with ⟨outs, err, tr⟩
  rw [hp] at hout
  unfold main_run
  rw [hp]
  by_cases h : last = some latest
  · left
    simp [h]
  · rw [if_neg h]
    cases err with
    | some e => left; rfl
    | none =>
      cases saveResult with
      | ok u =>
        right
        exact ⟨rfl, hout rfl, rfl, rfl⟩
      | error e => left; rfl

/-- C9.  Failure signalling: a comparison failure on any file, or a
failure to save the tracker state, escapes `main` (non-zero exit); a run
in which every comparison and the save succeed raises nothing. -/
theorem main_run_failure_signalling
    (fetch : String → String → Except PyError String)
    (saveResult : Except PyError Unit) (files : List String)
    (latest : String) (last : Option String) :
    (∀ e, last ≠ some latest →
      (processLoop fetch files last latest).2.1 = some e →
      (main_run fetch saveResult files latest last).failed = some e) ∧
    (∀ e, last ≠ some latest →
      (processLoop fetch files last latest).2.1 = none →
      saveResult = Except.error e →
      (main_run fetch saveResult files latest last).failed = some e) ∧
    ((processLoop fetch files last latest).2.1 = none →
      saveResult = Except.ok () →
      (main_run fetch saveResult files latest last).failed = none) := by
  rcases hp : processLoop fetch files last latest with ⟨outs, err, tr⟩
  unfold main_run
  rw [hp]
  refine ⟨?_, ?_, ?_⟩
  · intro e hne herr
    rw [if_neg hne]
    simp only at herr
    rw [herr]
  · intro e hne herr hsave
    rw [if_neg hne]
    simp only at herr
    rw [herr, hsave]
  · intro herr hsave
    by_cases h : last = some latest
    · rw [if_pos h]
    · rw [if_neg h]
      simp only at herr
      rw [herr, hsave]

/-- Witness for C9: the spec's partial-failure scenario — file A
succeeds, file B fails with a transient error — makes the run raise. -/
theorem main_run_failure_signalling_witness :
    (main_run
      (fun _ path => if path = "b.txt"
        then Except.error (PyError.otherError "timeout")
        else Except.ok "x.com\nold.com\n")
      (Except.ok ()) ["a.txt", "b.txt"] "s2" (some "s1")).failed =
      some (PyError.otherError "timeout") :=
  (main_run_failure_signalling
      (fun _ path => if path = "b.txt"
        then Except.error (PyError.otherError "timeout")
        else Except.ok "x.com\nold.com\n")
      (Except.ok ()) ["a.txt", "b.txt"] "s2" (some "s1")).1
    (PyError.otherError "timeout") (by decide) (by decide)

/-- Counterexample to C1: with three monitored files and a transient
fetch failure on the second, the run stops at the failing file — the
third file gets no outcome of any kind, so processing of the remaining
files IS aborted. -/
theorem main_run_partial_failure_cex :
    "c.txt" ∈ (["a.txt", "b.txt", "c.txt"] : List String) ∧
    (main_run
      (fun _ path => if path = "b.txt"
        then Except.error (PyError.otherError "timeout")
        else Except.ok "x.com\n")
      (Except.ok ()) ["a.txt", "b.txt", "c.txt"] "s2"
      (some "s1")).outputs.map Prod.fst = ["a.txt"] ∧
    "c.txt" ∉ ((main_run
      (fun _ path => if path = "b.txt"
        then Except.error (PyError.otherError "timeout")
        else Except.ok "x.com\n")
      (Except.ok ()) ["a.txt", "b.txt", "c.txt"] "s2"
      (some "s1")).outputs.map Prod.fst) ∧
    (main_run
      (fun _ path => if path = "b.txt"
        then Except.error (PyError.otherError "timeout")
        else Except.ok "x.com\n")
      (Except.ok ()) ["a.txt", "b.txt", "c.txt"] "s2"
      (some "s1")).failed = some (PyError.otherError "timeout") := by decide

/-- C1 (amended).  A fetch/comparison failure on one file aborts the
run: the error escapes `main`, the tracker keeps its pre-run value, and
outputs exist only for the files strictly before the failing one — files
after it are not processed at all. -/
theorem main_run_failure_aborts_run
    (fetch : String → String → Except PyError String)
    (saveResult : Except PyError Unit) (files : List String)
    (latest : String) (last : Option String) (e : PyError)
    (hne : last ≠ some latest)
    (hfail : (processLoop fetch files last latest).2.1 = some e) :
    (main_run fetch saveResult files latest last).failed = some e ∧
    (main_run fetch saveResult files latest last).tracker = last ∧
    (main_run fetch saveResult files latest last).outputs.map Prod.fst =
      files.take (main_run fetch saveResult files latest last).outputs.length ∧
    (main_run fetch saveResult files latest last).outputs.length <
      files.length := by
  have hpre := processLoop_outputs_prefix fetch last latest files
  rcases hp : processLoop fetch files last latest with ⟨outs, err, tr⟩
  rw [hp] at hpre hfail
  simp only at hfail
  unfold main_run
  rw [hp, if_neg hne, hfail]
  exact ⟨rfl, rfl, hpre.1, hpre.2 (by rw [hfail]; exact Option.some_ne_none e)⟩

/-- Witness for the amended C1 at the three-file scenario. -/
theorem main_run_failure_aborts_run_witness :
    (main_run
      (fun _ path => if path = "b.txt"
        then Except.error (PyError.otherError "timeout")
        else Except.ok "x.com\n")
      (Except.ok ()) ["a.txt", "b.txt", "c.txt"] "s2"
      (some "s1")).failed = some (PyError.otherError "timeout") ∧
    (main_run
      (fun _ path => if path = "b.txt"
        then Except.error (PyError.otherError "timeout")
        else Except.ok "x.com\n")
      (Except.ok ()) ["a.txt", "b.txt", "c.txt"] "s2"
      (some "s1")).tracker = some "s1" ∧
    (main_run
      (fun _ path => if path = "b.txt"
        then Except.error (PyError.otherError "timeout")
        else Except.ok "x.com\n")
      (Except.ok ()) ["a.txt", "b.txt", "c.txt"] "s2"
      (some "s1")).outputs.map Prod.fst =
      (["a.txt", "b.txt", "c.txt"] : List String).take
        (main_run
          (fun _ path => if path = "b.txt"
            then Except.error (PyError.otherError "timeout")
            else Except.ok "x.com\n")
          (Except.ok ()) ["a.txt", "b.txt", "c.txt"] "s2"
          (some "s1")).outputs.length ∧
    (main_run
      (fun _ path => if path = "b.txt"
        then Except.error (PyError.otherError "timeout")
        else Except.ok "x.com\n")
      (Except.ok ()) ["a.txt", "b.txt", "c.txt"] "s2"
      (some "s1")).outputs.length < (["a.txt", "b.txt", "c.txt"] : List String).length :=
  main_run_failure_aborts_run
    (fun _ path => if path = "b.txt"
      then Except.error (PyError.otherError "timeout")
      else Except.ok "x.com\n")
    (Except.ok ()) ["a.txt", "b.txt", "c.txt"] "s2" (some "s1")
    (PyError.otherError "timeout") (by decide) (by decide)

/-- Counterexample to C4: in a run where the loaded commit equals the
latest one, `main` performs no fetch at all — in particular the
monitored file's content at the new commit is not fetched. -/
theorem main_run_fetch_fresh_cex :
    (["a.txt"] : List String) ≠ [] ∧
    (main_run (fun _ _ => Except.ok "x.com\n") (Except.ok ())
      ["a.txt"] "s1" (some "s1")).fetches = [] ∧
    ("s1", "a.txt") ∉ (main_run (fun _ _ => Except.ok "x.com\n") (Except.ok ())
      ["a.txt"] "s1" (some "s1")).fetches := by decide

/-- C4 (amended).  Whenever a file is actually processed (the loaded
commit is absent or differs from the latest), its content at the new
commit is fetched, and fetched first, whatever the old-commit policy
branch; but in the branch where the loaded commit equals the latest one
nothing is fetched at all. -/
theorem process_file_fetches_new_first :
    (∀ (fetch : String → String → Except PyError String)
       (file_path : String) (old : Option String) (newSha : String),
      (process_file fetch file_path old newSha).2.head? =
        some (newSha, file_path)) ∧
    (∀ (fetch : String → String → Except PyError String)
       (saveResult : Except PyError Unit) (files : List String)
       (latest : String),
      (main_run fetch saveResult files latest (some latest)).fetches = []) := by
  constructor
  · intro fetch file_path old newSha
    unfold process_file
    cases hf : fetch newSha file_path with
    | error e => rfl
    | ok new_content =>
      cases old with
      | none => rfl
      | some oldSha =>
        cases hf2 : fetch oldSha file_path with
        | ok old_content => simp [hf2]
        | error e =>
          cases e with
          | httpError status =>
            by_cases h4 : status = 404 <;> simp [hf2, h4]
          | otherError msg => simp [hf2]
  · intro fetch saveResult files latest
    simp [main_run]

/-- Pulling one line off the front of the line splitter. -/
theorem splitLinesList_newline_cons (s : List Char) :
    splitLinesList ('\n' :: s) = [] :: splitLinesList s := by
  cases s with
  | nil => decide
  | cons c2 cs => simp [splitLinesList, show isLineBoundary '\n' = true from rfl]

/-- A line free of boundary characters followed by a newline splits off
verbatim. -/
theorem splitLinesList_append_cons (a : List Char) (s : List Char)
    (h : ∀ c ∈ a, ¬ isLineBoundary c) :
    splitLinesList (a ++ '\n' :: s) = a :: splitLinesList s := by
  induction a with
  | nil => exact splitLinesList_newline_cons s
  | cons c a' ih =>
    have hc : ¬ isLineBoundary c := h c (by simp)
    have hcr : c ≠ '\x0d' := by rintro rfl; exact hc (by decide)
    have ih' := ih (fun x hx => h x (by simp [hx]))
    rcases ha : a' ++ '\n' :: s with _ | ⟨c2, cs⟩
    · exact absurd ha (by simp)
    · rw [ha] at ih'
      rw [List.cons_append, ha, splitLinesList, ih']
      simp [hcr, hc]

/-- Splitting the concatenation of newline-terminated, boundary-free
lines recovers exactly those lines. -/
theorem splitLinesList_flatten (rs : List (List Char))
    (h : ∀ r ∈ rs, ∀ c ∈ r, ¬ isLineBoundary c) :
    splitLinesList ((rs.map (fun r => r ++ ['\n'])).flatten) = rs := by
  induction rs with
  | nil => rfl
  | cons r rest ih =>
    have : (((r :: rest).map (fun r => r ++ ['\n'])).flatten) =
        r ++ '\n' :: ((rest.map (fun r => r ++ ['\n'])).flatten) := by
      simp
    rw [this, splitLinesList_append_cons r _ (fun c hc => h r (by simp) c hc),
      ih (fun x hx => h x (by simp [hx]))]

/-- `String.join` concatenates the characters. -/
theorem join_data (l : List String) :
    (String.join l).data = (l.map String.data).flatten := by
  have aux : ∀ acc : String, (l.foldl (fun r s => r ++ s) acc).data =
      acc.data ++ (l.map String.data).flatten := by
    induction l with
    | nil => intro acc; simp
    | cons a l ih => intro acc; simp [ih, String.data_append]
  have e := aux ""
  rwa [show ("" : String).data = [] from rfl, List.nil_append] at e

/-- `Nat.digitChar` never produces a line boundary. -/
theorem digitChar_not_boundary (n : Nat) :
    ¬ isLineBoundary (Nat.digitChar n) := by
  rcases Nat.lt_or_ge n 16 with h | h
  · interval_cases n <;> decide
  · have e : Nat.digitChar n = '*' := by
      unfold Nat.digitChar
      iterate 16 rw [if_neg (by omega)]
    rw [e]; decide

/-- The decimal digit accumulator never produces a line boundary. -/
theorem toDigitsCore_not_boundary :
    ∀ (fuel n : Nat) (ds : List Char),
      (∀ c ∈ ds, ¬ isLineBoundary c) →
      ∀ c ∈ Nat.toDigitsCore 10 fuel n ds, ¬ isLineBoundary c := by
  intro fuel
  induction fuel with
  | zero => intro n ds h; simpa [Nat.toDigitsCore] using h
  | succ fuel ih =>
    intro n ds h
    unfold Nat.toDigitsCore
    have hds : ∀ c ∈ Nat.digitChar (n % 10) :: ds, ¬ isLineBoundary c := by
      intro c hc
      rcases List.mem_cons.1 hc with rfl | hc
      · exact digitChar_not_boundary _
      · exact h c hc
    by_cases h0 : n / 10 = 0
    · simpa [h0] using hds
    · simpa [h0] using ih (n / 10) (Nat.digitChar (n % 10) :: ds) hds

/-- The decimal representation of a number contains no line boundary. -/
theorem natRepr_not_boundary (n : Nat) :
    ∀ c ∈ (Nat.repr n).data, ¬ isLineBoundary c := by
  intro c hc
  have e : (Nat.repr n).data = Nat.toDigitsCore 10 (n + 1) n [] := rfl
  rw [e] at hc
  exact toDigitsCore_not_boundary (n + 1) n [] (by simp) c hc

/-- Stripping keeps a leading `'#'`. -/
theorem pyStrip_startsWithHash (s : String) (h : s.data.head? = some '#') :
    startsWithHash (pyStrip s) = true := by
  rcases hd : s.data with _ | ⟨c, t⟩
  · rw [hd] at h; simp at h
  · rw [hd] at h
    simp only [List.head?_cons, Option.some.injEq] at h
    subst h
    unfold startsWithHash pyStrip
    rw [hd]
    have h1 : List.dropWhile pyIsSpace ('#' :: t) = '#' :: t := by
      rw [List.dropWhile_cons_of_neg (by decide)]
    rw [h1]
    have h2 : ('#' :: t).reverse = t.reverse ++ ['#'] := by simp
    rw [h2, List.dropWhile_append]
    by_cases he : (List.dropWhile pyIsSpace t.reverse).isEmpty
    · simp [he, List.dropWhile_cons_of_neg (show ¬ pyIsSpace '#' = true by decide)]
    · simp [he]

/-- Full line decomposition of the text written by `save_new_records`:
three header lines, the blank line, then either the marker line or the
sorted records. -/
theorem splitlines_save_content (p t : String) (R : Finset String)
    (hp : ∀ c ∈ p.data, ¬ isLineBoundary c)
    (ht : ∀ c ∈ t.data, ¬ isLineBoundary c)
    (hR : ∀ r ∈ R, ∀ c ∈ r.data, ¬ isLineBoundary c) :
    splitlines (save_new_records_content p t R) =
      ("# New records added to " ++ p) ::
      ("# Last updated: " ++ t) ::
      ("# Total new records: " ++ Nat.repr R.card) ::
      "" ::
      (if R = ∅ then ["# No new records detected in the last check"]
       else R.sort (· ≤ ·)) := by
  have lit1 : ∀ c ∈ "# New records added to ".data, ¬ isLineBoundary c := by decide
  have lit2 : ∀ c ∈ "# Last updated: ".data, ¬ isLineBoundary c := by decide
  have lit3 : ∀ c ∈ "# Total new records: ".data, ¬ isLineBoundary c := by decide
  have hA1 : ∀ c ∈ "# New records added to ".data ++ p.data, ¬ isLineBoundary c := by
    intro c hc
    rcases List.mem_append.1 hc with hc | hc
    · exact lit1 c hc
    · exact hp c hc
  have hA2 : ∀ c ∈ "# Last updated: ".data ++ t.data, ¬ isLineBoundary c := by
    intro c hc
    rcases List.mem_append.1 hc with hc | hc
    · exact lit2 c hc
    · exact ht c hc
  have hA3 : ∀ c ∈ "# Total new records: ".data ++ (Nat.repr R.card).data,
      ¬ isLineBoundary c := by
    intro c hc
    rcases List.mem_append.1 hc with hc | hc
    · exact lit3 c hc
    · exact natRepr_not_boundary _ c hc
  have hdata : (save_new_records_content p t R).data =
      ("# New records added to ".data ++ p.data) ++ '\n' ::
      (("# Last updated: ".data ++ t.data) ++ '\n' ::
      (("# Total new records: ".data ++ (Nat.repr R.card).data) ++ '\n' :: '\n' ::
        (if R = ∅ then ("# No new records detected in the last check\n" : String)
         else String.join ((R.sort (· ≤ ·)).map (fun r => r ++ "\n"))).data)) := by
    simp [save_new_records_content, String.data_append,
      show ("\n" : String).data = ['\n'] from rfl,
      show ("\n\n" : String).data = ['\n', '\n'] from rfl]
  unfold splitlines
  rw [hdata, splitLinesList_append_cons _ _ hA1, splitLinesList_append_cons _ _ hA2,
    splitLinesList_append_cons _ _ hA3, splitLinesList_newline_cons]
  by_cases hempty : R = ∅
  · rw [if_pos hempty, if_pos hempty]
    have hm : splitLinesList ("# No new records detected in the last check\n" :
        String).data = ["# No new records detected in the last check".data] := by
      decide
    rw [hm]
    rfl
  · rw [if_neg hempty, if_neg hempty]
    have hjoin : (String.join ((R.sort (· ≤ ·)).map (fun r => r ++ "\n"))).data =
        (((R.sort (· ≤ ·)).map String.data).map (fun r => r ++ ['\n'])).flatten := by
      rw [join_data, List.map_map, List.map_map]
      congr 1
    have hsplit : splitLinesList
        ((((R.sort (· ≤ ·)).map String.data).map (fun r => r ++ ['\n'])).flatten) =
        (R.sort (· ≤ ·)).map String.data := by
      apply splitLinesList_flatten
      intro r hr c hc
      rcases List.mem_map.1 hr with ⟨s, hs, rfl⟩
      exact hR s (Finset.mem_sort (α := String) (· ≤ ·) |>.1 hs) c hc
    rw [hjoin, hsplit]
    show _ = _
    simp only [List.map_cons, List.map_map]
    refine congrArg₂ _ rfl (congrArg₂ _ rfl (congrArg₂ _ rfl (congrArg₂ _ rfl ?_)))
    show (R.sort (· ≤ ·)).map (fun s => (⟨s.data⟩ : String)) = R.sort (· ≤ ·)
    exact List.map_id _

/-- Counterexample to C10: the record `"a\x0db"` (a carriage return
inside, no `'\n'`) satisfies the claim's conditions — non-empty, no
newline, equal to its stripped form, not starting with `'#'` — yet the
written file parses back to `{"a", "b"}`, because Python's
`splitlines()` also breaks at a bare CR. -/
theorem save_parse_roundtrip_cex :
    ("a\x0db" ≠ "" ∧ ('\n' ∉ "a\x0db".data) ∧ pyStrip "a\x0db" = "a\x0db" ∧
      startsWithHash "a\x0db" = false) ∧
    parse_records (save_new_records_content "domains/f.txt" "ts" {"a\x0db"}) ≠
      ({"a\x0db"} : Finset String) := by
  constructor
  · exact ⟨by decide, by decide, by decide, by decide⟩
  · have hs : save_new_records_content "domains/f.txt" "ts" {"a\x0db"} =
        "# New records added to domains/f.txt\n# Last updated: ts\n# Total new records: 1\n\na\x0db\n" := by
      unfold save_new_records_content
      rw [if_neg (by simp), Finset.sort_singleton]
      rfl
    rw [hs]
    decide

/-- C10 (amended).  Output/parse round-trip: for a finite set of records
that are non-empty, free of line-boundary characters (`'\n'`, `'\x0d'`
and the other `str.splitlines` boundaries), equal to their own stripped
form and not starting with `'#'`, and a file path and timestamp free of
line boundaries, parsing the written file recovers exactly the set. -/
theorem save_parse_roundtrip
    (file_path timestamp : String) (records : Finset String)
    (hp : ∀ c ∈ file_path.data, ¬ isLineBoundary c)
    (ht : ∀ c ∈ timestamp.data, ¬ isLineBoundary c)
    (hr : ∀ r ∈ records, r ≠ "" ∧ pyStrip r = r ∧ startsWithHash r = false ∧
      ∀ c ∈ r.data, ¬ isLineBoundary c) :
    parse_records (save_new_records_content file_path timestamp records) =
      records := by
  have hlines := splitlines_save_content file_path timestamp records hp ht
    (fun r hrm => (hr r hrm).2.2.2)
  have e1 : startsWithHash (pyStrip ("# New records added to " ++ file_path)) =
      true := by
    apply pyStrip_startsWithHash
    simp [show "# New records added to ".data.head? = some '#' from by decide]
  have e2 : startsWithHash (pyStrip ("# Last updated: " ++ timestamp)) = true := by
    apply pyStrip_startsWithHash
    simp [show "# Last updated: ".data.head? = some '#' from by decide]
  have e3 : startsWithHash (pyStrip ("# Total new records: " ++
      Nat.repr records.card)) = true := by
    apply pyStrip_startsWithHash
    simp [show "# Total new records: ".data.head? = some '#' from by decide]
  unfold parse_records
  rw [hlines]
  by_cases hempty : records = ∅
  · subst hempty
    simp only [Finset.card_empty] at e3
    simp [List.filter_cons, e1, e2, e3, show pyStrip "" = "" from rfl,
      show startsWithHash
        (pyStrip "# No new records detected in the last check") = true from
        by decide]
  · rw [if_neg hempty]
    have hmap : (records.sort (· ≤ ·)).map pyStrip = records.sort (· ≤ ·) := by
      have hid : ∀ r ∈ records.sort (· ≤ ·), pyStrip r = r := fun r hrm =>
        (hr r ((Finset.mem_sort (α := String) (· ≤ ·)).1 hrm)).2.1
      calc (records.sort (· ≤ ·)).map pyStrip
          = (records.sort (· ≤ ·)).map (fun r => r) := List.map_congr_left hid
        _ = records.sort (· ≤ ·) := List.map_id _
    have hfil : (records.sort (· ≤ ·)).filter
        (fun l => l ≠ "" ∧ ¬ startsWithHash l) = records.sort (· ≤ ·) := by
      rw [List.filter_eq_self]
      intro r hrm
      have h := hr r ((Finset.mem_sort (α := String) (· ≤ ·)).1 hrm)
      simp [h.1, h.2.2.1]
    simp only [List.map_cons, hmap, List.filter_cons, e1, e2, e3,
      show pyStrip "" = "" from rfl]
    simp [hfil, Finset.sort_toFinset]
    rw [Finset.filter_eq_self]
    intro x hx
    exact ⟨(hr x hx).1, (hr x hx).2.2.1⟩

/-- Witness for the amended C10 at a concrete record set. -/
theorem save_parse_roundtrip_witness :
    parse_records
      (save_new_records_content "domains/f.txt" "2026-10-12 00:00:00 UTC"
        {"a.com", "B.com"}) = ({"a.com", "B.com"} : Finset String) :=
  save_parse_roundtrip "domains/f.txt" "2026-10-12 00:00:00 UTC"
    {"a.com", "B.com"} (by decide) (by decide) (by decide)

end HageziTracker
